import Mathlib

/-!
Verification of the event-distribution and task-claim arbitration core of the
SuperAI repository.

The development shallowly embeds:
* `src/core/event_bus.py` — the `EventBus` class: the listener registry
  (`subscribe`), the broker delivery model (Redis publish to exact channels
  and glob patterns) and the dispatch loop (`_process_message`, `listen`);
  glob matching embeds Python's `fnmatch.fnmatch` (POSIX `normcase` is the
  identity, so matching is case-sensitive).
  Note: `json_formatter.py` is absent from the repository, so the
  `StandardJSONFormatter = None` fallback branches of `event_bus.py`
  (`json.loads` with `except`, no task-event validation) are the code paths
  that actually run and are what is embedded here.
* `src/microservices/agent-planner/app.py` — `PlannerAgent.handle_task_created`
  (the bounded-retry wrapper), `_process_task_with_lock` (the Redis
  `SET NX EX 60` claim, plan publication and `finally` release),
  `_safe_release_lock`, `_publish_error_event` and `approve_plan`.
* the broker keyspace claim state machine (`SET key v NX EX 60`, `DEL key`,
  TTL expiry) used by the planner's distributed lock.

Listeners are identified by natural numbers (Python deduplicates them by
object identity).  Payload decoding (`json.loads`) is an external library
call and is passed in as a `String → Option α` parameter; exceptions raised
by external calls are likewise injected as explicit parameters.
-/

namespace SuperAI

/-! ## Glob matching (`fnmatch.fnmatch` as called by `_process_message`) -/

/-- Scan for the closing `]` of a character class, returning the class body
and the remainder of the pattern.  `none` when the bracket is unclosed. -/
def findClose : List Char → Option (List Char × List Char)
  | [] => none
  | c :: r =>
    if c = ']' then some ([], r)
    else (findClose r).map (fun q => (c :: q.1, q.2))

/-- Parse the body of a `[...]` character class with a given complement flag:
a `]` placed first is a literal member of the class. -/
def splitClassAux (l : List Char) (neg : Bool) :
    Option (Bool × List Char × List Char) :=
  if l.head? = some ']' then
    (findClose l.tail).map (fun q => (neg, ']' :: q.1, q.2))
  else
    (findClose l).map (fun q => (neg, q.1, q.2))

/-- Parse the body of a `[...]` character class, following the scanning rule
of `fnmatch.translate`: a leading `!` complements; a `]` placed first (after
the optional `!`) is a literal member.  Returns `(complemented, class chars,
rest of the pattern after the closing bracket)`; `none` when the bracket is
unclosed, in which case `[` is treated as a literal character. -/
def splitClass (l : List Char) : Option (Bool × List Char × List Char) :=
  if l.head? = some '!' then splitClassAux l.tail true
  else splitClassAux l false

/-- Membership of a character in a class body, with `a-b` ranges. -/
def classHas : List Char → Char → Bool
  | a :: '-' :: b :: rest, c =>
    (decide (a ≤ c) && decide (c ≤ b)) || classHas rest c
  | a :: rest, c => a == c || classHas rest c
  | [], _ => false

/-- One character against a parsed class: plain membership, or its
complement for a `[!...]` class. -/
def classMatch (neg : Bool) (cls : List Char) (c : Char) : Bool :=
  if neg then !classHas cls c else classHas cls c

/-- Matching one pattern step against a nonempty string `d :: s2`, where
`next q` decides whether pattern `q` matches the tail `s2`.  The inner
structural recursion on the pattern handles the `*` case (which consumes no
character). -/
def globCons (d : Char) (s2 : List Char) (next : List Char → Bool) :
    List Char → Bool
  | [] => false
  | c :: ps =>
    if c = '*' then globCons d s2 next ps || next (c :: ps)
    else if c = '?' then next ps
    else if c = '[' then
      match splitClass ps with
      | none => decide (d = '[') && next ps
      | some (neg, cls, rest) => classMatch neg cls d && next rest
    else c == d && next ps

/-- Shell-style glob matching, candidate string first, pattern second:
`*` matches any run of characters, `?` exactly one character, `[...]` a
character class (with `[!...]` complement), an unclosed `[` is a literal,
and any other character matches itself.  This is the semantics of Python's
`fnmatch`; the recursion is structural in the string (a pattern matches the
empty string exactly when it consists of `*`s only). -/
def globOn : List Char → List Char → Bool
  | [], p => p.all (fun c => c == '*')
  | d :: s2, p => globCons d s2 (globOn s2) p

/-- `fnmatch.fnmatch(name, pattern)` on strings (POSIX: case-sensitive). -/
def fnmatch (name pat : String) : Bool :=
  globOn name.data pat.data

example : fnmatch "task.created" "task.*" = true := by decide
example : fnmatch "plan.approved" "task.*" = false := by decide
example : fnmatch "anything.at.all" "*" = true := by decide
example : fnmatch "task.created" "task.created" = true := by decide
example : fnmatch "task.x" "task.?" = true := by decide
example : fnmatch "task.xy" "task.?" = false := by decide
example : fnmatch "task.a" "task.[ab]" = true := by decide
example : fnmatch "task.c" "task.[ab]" = false := by decide
example : fnmatch "task.c" "task.[!ab]" = true := by decide
example : fnmatch "task.b" "task.[a-c]" = true := by decide
example : fnmatch "x[" "x[" = true := by decide
example : fnmatch "" "**" = true := by decide

/-! ### Declarative glob semantics, following the specification's wording:
`*` = any run of characters, `?` = one character, `[...]` = character
class.  `GlobSem p s` states that pattern `p` matches string `s`. -/

inductive GlobSem : List Char → List Char → Prop where
  | nil : GlobSem [] []
  | star (ps s1 s2 : List Char) : GlobSem ps s2 → GlobSem ('*' :: ps) (s1 ++ s2)
  | one (ps : List Char) (c : Char) (s : List Char) :
      GlobSem ps s → GlobSem ('?' :: ps) (c :: s)
  | cls (ps : List Char) (neg : Bool) (cs rest : List Char) (c : Char)
      (s : List Char) :
      splitClass ps = some (neg, cs, rest) → classMatch neg cs c = true →
      GlobSem rest s → GlobSem ('[' :: ps) (c :: s)
  | litBracket (ps s : List Char) : splitClass ps = none →
      GlobSem ps s → GlobSem ('[' :: ps) ('[' :: s)
  | lit (c : Char) (ps s : List Char) : c ≠ '*' → c ≠ '?' → c ≠ '[' →
      GlobSem ps s → GlobSem (c :: ps) (c :: s)

theorem globOn_star_intro (s ps : List Char) (h : globOn s ps = true) :
    globOn s ('*' :: ps) = true := by
  cases s with
  | nil =>
    simp only [globOn, List.all_cons] at h ⊢
    simp [h]
  | cons d s2 =>
    simp only [globOn, globCons] at h ⊢
    simp [h]

theorem GlobSem.star_cons (ps : List Char) (d : Char) (s : List Char)
    (h : GlobSem ('*' :: ps) s) : GlobSem ('*' :: ps) (d :: s) := by
  cases h with
  | star ps s1 s2 h2 =>
    have : d :: (s1 ++ s2) = (d :: s1) ++ s2 := by simp
    rw [this]
    exact GlobSem.star ps (d :: s1) s2 h2
  | lit c ps s h1 _ _ _ => exact absurd rfl h1

theorem globOn_of_globSem (p s : List Char) (h : GlobSem p s) :
    globOn s p = true := by
  induction h with
  | nil => decide
  | star ps s1 s2 _ ih =>
    induction s1 with
    | nil =>
      simp only [List.nil_append]
      exact globOn_star_intro s2 ps ih
    | cons e s1' ihs =>
      simp only [List.cons_append, globOn, globCons, if_pos rfl]
      simp only [List.cons_append] at ihs ⊢
      simp [ihs]
  | one ps c s _ ih =>
    simp only [globOn, globCons]
    norm_num
    exact ih
  | cls ps neg cs rest c s hsplit hcm _ ih =>
    simp only [globOn, globCons]
    norm_num
    rw [hsplit]
    simp [hcm, ih]
  | litBracket ps s hsplit _ ih =>
    simp only [globOn, globCons]
    norm_num
    rw [hsplit]
    simp [ih]
  | lit c ps s h1 h2 h3 _ ih =>
    simp only [globOn, globCons, if_neg h1, if_neg h2, if_neg h3]
    simp [ih]

theorem globSem_of_globOn : ∀ (s p : List Char), globOn s p = true →
    GlobSem p s := by
  intro s
  induction s with
  | nil =>
    intro p
    induction p with
    | nil => intro _; exact GlobSem.nil
    | cons c ps ihp =>
      intro h
      simp only [globOn, List.all_cons, Bool.and_eq_true, beq_iff_eq] at h
      obtain ⟨hc, hall⟩ := h
      subst hc
      have : GlobSem ps [] := ihp (by simp [globOn, hall])
      exact List.nil_append ([] : List Char) ▸ GlobSem.star ps [] [] this
  | cons d s2 ihs =>
    intro p
    induction p with
    | nil =>
      intro h
      simp [globOn, globCons] at h
    | cons c ps ihp =>
      intro h
      simp only [globOn, globCons] at h
      by_cases hc : c = '*'
      · subst hc
        rw [if_pos rfl, Bool.or_eq_true] at h
        cases h with
        | inl h =>
          have : GlobSem ps (d :: s2) := ihp (by simp [globOn, h])
          exact List.nil_append (d :: s2) ▸ GlobSem.star ps [] (d :: s2) this
        | inr h =>
          exact GlobSem.star_cons ps d s2 (ihs _ h)
      · rw [if_neg hc] at h
        by_cases hq : c = '?'
        · subst hq
          rw [if_pos rfl] at h
          exact GlobSem.one ps d s2 (ihs _ h)
        · rw [if_neg hq] at h
          by_cases hb : c = '['
          · subst hb
            rw [if_pos rfl] at h
            cases hsplit : splitClass ps with
            | none =>
              rw [hsplit] at h
              simp only [Bool.and_eq_true, decide_eq_true_eq] at h
              obtain ⟨hd, h2⟩ := h
              subst hd
              exact GlobSem.litBracket ps s2 hsplit (ihs _ h2)
            | some r =>
              obtain ⟨neg, cs, rest⟩ := r
              rw [hsplit] at h
              simp only [Bool.and_eq_true] at h
              exact GlobSem.cls ps neg cs rest d s2 hsplit h.1 (ihs _ h.2)
          · rw [if_neg hb] at h
            simp only [Bool.and_eq_true, beq_iff_eq] at h
            obtain ⟨hd, h2⟩ := h
            subst hd
            exact GlobSem.lit c ps s2 hc hq hb (ihs _ h2)

/-- The executable matcher used by the dispatch loop agrees exactly with the
declarative shell-style wildcard semantics. -/
theorem fnmatch_iff_globSem (name pat : String) :
    fnmatch name pat = true ↔ GlobSem pat.data name.data := by
  constructor
  · exact globSem_of_globOn name.data pat.data
  · exact globOn_of_globSem pat.data name.data

/-! ## EventBus listener registry (`EventBus.subscribe`)

`self.listeners` is a `defaultdict(list)` mapping a pattern string to the
list of listeners registered under it, in insertion order; Python `dict`
iterates keys in insertion order, and listeners are compared by identity
(modelled by `Nat` identifiers). -/

/-- The in-process listener registry: an insertion-ordered association list
from pattern to its registered listeners. -/
def Registry := List (String × List Nat)

/-- `self.listeners[p]`: the listeners registered under pattern `p`
(`defaultdict`: the empty list when the key is absent). -/
def lookupListeners : Registry → String → List Nat
  | [], _ => []
  | (q, ls) :: rest, p => if q = p then ls else lookupListeners rest p

/-- The pattern keys present in the registry, in insertion order. -/
def registryKeys (r : Registry) : List String :=
  r.map Prod.fst

/-- Append listener `l` to the entry of pattern `p` (creating the entry at
the end, as Python dicts append new keys in insertion order). -/
def addListener : Registry → String → Nat → Registry
  | [], p, l => [(p, [l])]
  | (q, ls) :: rest, p, l =>
    if q = p then (q, ls ++ [l]) :: rest
    else (q, ls) :: addListener rest p l

/-- `'*' in event_type or '?' in event_type or '[' in event_type`: the test
`EventBus.subscribe` uses to decide between `psubscribe` and `subscribe`. -/
def hasGlobChar (p : String) : Bool :=
  p.data.any (fun c => c == '*' || c == '?' || c == '[')

/-- `EventBus.subscribe(event_type, listener)`: registers the listener under
the pattern unless the identical listener is already registered there (the
duplicate check), and — on first registration — issues `psubscribe` for
glob patterns or `subscribe` for exact topics to the broker.  The broker
subscription set is recovered from the registry (a key is present exactly
when a first registration happened), so only the registry is returned. -/
def subscribe (r : Registry) (p : String) (l : Nat) : Registry :=
  if l ∈ lookupListeners r p then r else addListener r p l

/-! ## Broker delivery model (Redis Pub/Sub)

Redis delivers, for a `PUBLISH topic payload`, one `message` envelope to a
client per `SUBSCRIBE`d channel equal to the topic, and one `pmessage`
envelope per `PSUBSCRIBE`d pattern glob-matching the topic.  A process whose
registry holds both an exact subscription and matching glob subscriptions
therefore receives several envelopes for a single published event. -/

/-- An inbound broker envelope, after `ignore_subscribe_messages=True`
filtering: either an exact-channel `message` or a pattern `pmessage`. -/
inductive BrokerMsg where
  | message (channel : String) (payload : String)
  | pmessage (pat : String) (channel : String) (payload : String)
deriving DecidableEq

/-- `message.get('channel')`. -/
def BrokerMsg.channel : BrokerMsg → String
  | .message c _ => c
  | .pmessage _ c _ => c

/-- `message.get('data', '{}')`. -/
def BrokerMsg.payload : BrokerMsg → String
  | .message _ d => d
  | .pmessage _ _ d => d

/-- The envelopes Redis delivers to this process for one publish to `topic`:
one `message` if the registry holds an exact subscription to the topic, plus
one `pmessage` per registered glob pattern matching it. -/
def deliveriesFor (r : Registry) (topic payload : String) : List BrokerMsg :=
  (if (registryKeys r).any (fun p => !hasGlobChar p && p == topic)
   then [BrokerMsg.message topic payload] else [])
  ++ (registryKeys r).filterMap (fun p =>
      if hasGlobChar p && fnmatch topic p
      then some (BrokerMsg.pmessage p topic payload) else none)

/-! ## Dispatch loop (`EventBus._process_message` and `EventBus.listen`) -/

/-- The `matching_patterns` computed by `_process_message`: for a
`pmessage`, all registered patterns other than `'*'` whose glob matches the
concrete channel; for a plain `message`, the channel itself. -/
def matchingPatterns (r : Registry) : BrokerMsg → List String
  | .pmessage _ c _ =>
    (registryKeys r).filter (fun p => !(p == "*") && fnmatch c p)
  | .message c _ => [c]

/-- The listeners `_process_message` invokes for one envelope: the union of
the listeners of every matching pattern and of the unconditional wildcard
`'*'`, de-duplicated by identity (`set(...)`). -/
def dispatchedListeners (r : Registry) (m : BrokerMsg) : List Nat :=
  (((matchingPatterns r m).map (lookupListeners r)).flatten
    ++ lookupListeners r "*").dedup

/-- Processing of one envelope with payload decoder `decode` (`json.loads`):
on decode failure the message is dropped with a warning and no listener is
invoked; otherwise each dispatched listener is invoked with the concrete
channel and the decoded payload.  Returns the invocation list in order. -/
def processMessage (decode : String → Option α) (r : Registry)
    (m : BrokerMsg) : List (Nat × String × α) :=
  match decode m.payload with
  | none => []
  | some d => (dispatchedListeners r m).map (fun l => (l, m.channel, d))

/-- The dispatch loop (`listen`): processes the delivered envelopes in
order; each envelope's processing is independent of the previous ones. -/
def listenLoop (decode : String → Option α) (r : Registry)
    (msgs : List BrokerMsg) : List (Nat × String × α) :=
  (msgs.map (processMessage decode r)).flatten

/-- End-to-end: the invocations a single `publish(topic, payload)` causes in
a process with registry `r` once the dispatch loop has drained the broker's
deliveries. -/
def invocationsOfPublish (decode : String → Option α) (r : Registry)
    (topic payload : String) : List (Nat × String × α) :=
  listenLoop decode r (deliveriesFor r topic payload)

/-- How often listener `l` is invoked in an invocation list. -/
def invocationCount (l : Nat) (invs : List (Nat × String × α)) : Nat :=
  (invs.map Prod.fst).count l

example :
    invocationsOfPublish some (subscribe [] "task.created" 0)
      "task.created" "x" = [(0, "task.created", "x")] := by decide
example :
    invocationsOfPublish some (subscribe (subscribe [] "task.created" 0) "*" 1)
      "task.created" "x" =
    [(0, "task.created", "x"), (1, "task.created", "x"),
     (0, "task.created", "x"), (1, "task.created", "x")] := by decide

/-! ## Dispatch with listener exceptions

`_process_message` calls each listener inside `try ... except Exception`,
logging the error and moving on.  The behaviour of each external listener
call is injected as `behaviour : Nat → Except String Unit` (`.error e`: the
call raises exception `e`). -/

/-- The result the dispatch loop records for one listener call: the call
returned, or its exception was caught and logged. -/
inductive CallOutcome where
  | returned
  | caughtExc (e : String)
deriving DecidableEq

/-- The `for listener in all_listeners: try ... except` loop: every listener
is called; a raised exception is caught (logged) and iteration proceeds with
the remaining listeners. -/
def runHandlers (behaviour : Nat → Except String Unit) :
    List Nat → List (Nat × CallOutcome)
  | [] => []
  | l :: rest =>
    match behaviour l with
    | .ok _ => (l, .returned) :: runHandlers behaviour rest
    | .error e => (l, .caughtExc e) :: runHandlers behaviour rest

/-- Processing of one envelope, recording each listener call's outcome. -/
def processMessageRun (decode : String → Option α)
    (behaviour : Nat → Except String Unit) (r : Registry) (m : BrokerMsg) :
    List (Nat × CallOutcome) :=
  match decode m.payload with
  | none => []
  | some _ => runHandlers behaviour (dispatchedListeners r m)

/-- The dispatch loop with listener outcomes: one envelope after another. -/
def listenLoopRun (decode : String → Option α)
    (behaviour : Nat → Except String Unit) (r : Registry)
    (msgs : List BrokerMsg) : List (Nat × CallOutcome) :=
  (msgs.map (processMessageRun decode behaviour r)).flatten

/-! ## Broker keyspace claim state machine

`_process_task_with_lock` claims a task with
`redis_client.set(lock_key, value, nx=True, ex=60)` — an atomic
"set if absent, with 60 s expiry" — and `_safe_release_lock` deletes the
key.  The keyspace at key `lock:task_created:{taskId}` is modelled
generously as a *list* of claims so that the at-most-one invariant is a
property of the transitions, not of the representation; a claim is alive at
instant `t` while `t < expiresAt`, and Redis treats an expired key as
absent. -/

/-- A claim stored at the lock key: the stored value and its expiry. -/
structure ClaimEntry where
  holder : String
  expiresAt : Nat
deriving DecidableEq

/-- The claims alive at instant `t` (Redis hides expired keys). -/
def aliveAt (t : Nat) (ks : List ClaimEntry) : List ClaimEntry :=
  ks.filter (fun c => decide (t < c.expiresAt))

/-- `SET key holder NX EX 60` at instant `t`: if no live claim exists the
claim is created (replacing any expired garbage, as `SET` overwrites) and
`true` is returned; otherwise the keyspace is untouched and `false` is
returned. -/
def tryClaim (t : Nat) (holder : String) (ks : List ClaimEntry) :
    List ClaimEntry × Bool :=
  match aliveAt t ks with
  | [] => ([⟨holder, t + 60⟩], true)
  | _ => (ks, false)

/-- `DEL key` (`_safe_release_lock`): unconditional deletion. -/
def releaseClaim (_ks : List ClaimEntry) : List ClaimEntry := []

/-- A step of the broker keyspace at the lock key of one task. -/
inductive ClaimStep where
  | tryC (t : Nat) (holder : String)
  | rel
  | expire (t : Nat)

/-- Transition function of the claim keyspace. -/
def applyClaimStep : ClaimStep → List ClaimEntry → List ClaimEntry
  | .tryC t h, ks => (tryClaim t h ks).1
  | .rel, ks => releaseClaim ks
  | .expire t, ks => aliveAt t ks

/-- Run a sequence of steps from the initially unclaimed keyspace. -/
def runClaimSteps (steps : List ClaimStep) : List ClaimEntry :=
  steps.foldl (fun ks st => applyClaimStep st ks) []

/-- `N` workers racing `tryClaim` at the same instant `t`: applies the
claims left to right, returning the final keyspace and each call's result. -/
def raceTryClaims (t : Nat) (holders : List String) (ks : List ClaimEntry) :
    List ClaimEntry × List Bool :=
  match holders with
  | [] => (ks, [])
  | h :: rest =>
    let step := tryClaim t h ks
    let next := raceTryClaims t rest step.1
    (next.1, step.2 :: next.2)

theorem applyClaimStep_le_one (st : ClaimStep) (ks : List ClaimEntry)
    (h : ks.length ≤ 1) : (applyClaimStep st ks).length ≤ 1 := by
  cases st with
  | tryC t holder =>
    simp only [applyClaimStep, tryClaim]
    cases halive : aliveAt t ks with
    | nil => simp
    | cons a rest => simpa using h
  | rel => simp [applyClaimStep, releaseClaim]
  | expire t =>
    simp only [applyClaimStep, aliveAt]
    exact le_trans (List.length_filter_le _ _) h

theorem runClaimSteps_le_one (steps : List ClaimStep) :
    (runClaimSteps steps).length ≤ 1 := by
  suffices h : ∀ (ks : List ClaimEntry), ks.length ≤ 1 →
      (steps.foldl (fun ks st => applyClaimStep st ks) ks).length ≤ 1 by
    exact h [] (by simp)
  induction steps with
  | nil => intro ks hks; simpa using hks
  | cons st rest ih =>
    intro ks hks
    exact ih _ (applyClaimStep_le_one st ks hks)

theorem tryClaim_false_no_side_effect (t : Nat) (holder : String)
    (ks : List ClaimEntry) (h : (tryClaim t holder ks).2 = false) :
    (tryClaim t holder ks).1 = ks := by
  unfold tryClaim at h ⊢
  cases halive : aliveAt t ks with
  | nil => rw [halive] at h; simp at h
  | cons a rest => rfl

theorem tryClaim_true_iff_absent (t : Nat) (holder : String)
    (ks : List ClaimEntry) :
    (tryClaim t holder ks).2 = true ↔ aliveAt t ks = [] := by
  unfold tryClaim
  cases halive : aliveAt t ks with
  | nil => simp
  | cons a rest => simp

theorem raceTryClaims_all_false (t : Nat) (holders : List String)
    (ks : List ClaimEntry) (h : aliveAt t ks ≠ []) :
    raceTryClaims t holders ks =
      (ks, List.replicate holders.length false) := by
  induction holders with
  | nil => simp [raceTryClaims]
  | cons hd rest ih =>
    simp only [raceTryClaims]
    have hfail : tryClaim t hd ks = (ks, false) := by
      unfold tryClaim
      cases halive : aliveAt t ks with
      | nil => exact absurd halive h
      | cons a r2 => rfl
    rw [hfail]
    simp only
    rw [ih]
    simp [List.replicate]

theorem raceTryClaims_one_winner (t : Nat) (holders : List String)
    (hne : holders ≠ []) :
    (raceTryClaims t holders []).2.count true = 1 ∧
    (raceTryClaims t holders []).2.count false = holders.length - 1 := by
  cases holders with
  | nil => exact absurd rfl hne
  | cons hd rest =>
    simp only [raceTryClaims]
    have hwin : tryClaim t hd [] = ([⟨hd, t + 60⟩], true) := by
      unfold tryClaim
      simp [aliveAt]
    rw [hwin]
    simp only
    have halive : aliveAt t [(⟨hd, t + 60⟩ : ClaimEntry)] ≠ [] := by
      simp [aliveAt]
    rw [raceTryClaims_all_false t rest _ halive]
    constructor
    · simp [List.count_cons, List.count_replicate]
    · simp [List.count_cons, List.count_replicate]

/-! ## PlannerAgent (`src/microservices/agent-planner/app.py`)

`handle_task_created` retries `_process_task_with_lock` up to `max_retries`
times with exponential backoff, and `_process_task_with_lock` claims the
task via `SET lock_key value NX EX 60`, publishes `plan.proposed` and (via
`approve_plan`) `plan.approved`, publishes `plan.error` on a processing
exception, and releases the lock in a `finally` block.

Within a single handler invocation the backoff sleeps total at most 3 s
against a 60 s claim TTL, so the lock key is modelled as `Option String`
(the stored value, `none` = absent); TTL expiry across invocations is the
claim state machine above.  External failures (the Redis `SET` call raising,
`create_execution_plan`/publish raising, the `plan.error` publish raising)
are injected per attempt through `AttemptEnv`. -/

/-- The fields of the `task.created` payload the handler reads:
`data.get('task_id')`, `data.get('session_id')` and
`data.get('data', {}).get('goal')`. -/
structure TaskData where
  task_id : Option String
  session_id : Option String
  goal : Option String

/-- Python truthiness of `data.get(...)` (`if not task_id`, `if not goal`):
absent or the empty string. -/
def falsyStr : Option String → Bool
  | none => true
  | some s => s.isEmpty

/-- The observable actions of the planner, in program order. -/
inductive Action where
  | tryClaimOk (key : String)
  | tryClaimFail (key : String)
  | logNoTaskId
  | logNoGoal
  | attemptFailed (attempt : Nat) (err : String)
  | sleep (seconds : Nat)
  | pubProposed (task_id : String) (session_id : Option String)
  | pubApproved (task_id : String) (session_id : Option String)
  | pubPlanError (task_id : String) (err : String) (goal : String)
  | pubTaskError (task_id : String) (err : String) (goal : String)
  | releaseKey (key : String)
deriving DecidableEq

/-- Where (if anywhere) the `try` body of `_process_task_with_lock` raises:
in `create_execution_plan`, in the `plan.proposed` publish, or inside
`approve_plan` (after `plan.proposed` was published). -/
inductive FailPoint where
  | noFail
  | atCreatePlan
  | atPubProposed
  | atApprove
deriving DecidableEq

/-- The external-failure behaviour of one processing attempt:
`lockRaise` — the Redis `SET` call raises (re-raised after logging);
`failPoint`/`failMsg` — where the `try` body raises and with what message;
`planErrorPubRaise` — the `plan.error` publish in the `except` block itself
raises (that exception propagates out after the `finally`). -/
structure AttemptEnv where
  lockRaise : Option String
  failPoint : FailPoint
  failMsg : String
  planErrorPubRaise : Option String

/-- `SET key v NX`: returns the new keyspace and whether the key was set. -/
def setNX (ks : Option String) (v : String) : Option String × Bool :=
  match ks with
  | none => (some v, true)
  | some w => (some w, false)

/-- The lock key `f"lock:task_created:{task_id}"`. -/
def lockKeyOf (taskId : String) : String :=
  "lock:task_created:" ++ taskId

/-- `PlannerAgent._process_task_with_lock(task_id, data, attempt)`: returns
the action trace, the resulting lock keyspace, and the exception that
propagates to the caller (`none` = normal return). -/
def processTaskWithLock (env : AttemptEnv) (d : TaskData) (taskId : String)
    (attempt : Nat) (ks : Option String) :
    List Action × Option String × Option String :=
  let key := lockKeyOf taskId
  match env.lockRaise with
  | some e => ([], ks, some e)
  | none =>
    match setNX ks ("locked_attempt_" ++ toString attempt) with
    | (_, false) => ([Action.tryClaimFail key], ks, none)
    | (_, true) =>
      if falsyStr d.goal then
        ([Action.tryClaimOk key, Action.logNoGoal, Action.releaseKey key],
         none, none)
      else
        let g := d.goal.getD ""
        match env.failPoint with
        | .noFail =>
          ([Action.tryClaimOk key,
            Action.pubProposed taskId d.session_id,
            Action.pubApproved taskId d.session_id,
            Action.releaseKey key], none, none)
        | .atCreatePlan =>
          match env.planErrorPubRaise with
          | none =>
            ([Action.tryClaimOk key,
              Action.pubPlanError taskId env.failMsg g,
              Action.releaseKey key], none, none)
          | some e2 =>
            ([Action.tryClaimOk key, Action.releaseKey key], none, some e2)
        | .atPubProposed =>
          match env.planErrorPubRaise with
          | none =>
            ([Action.tryClaimOk key,
              Action.pubPlanError taskId env.failMsg g,
              Action.releaseKey key], none, none)
          | some e2 =>
            ([Action.tryClaimOk key, Action.releaseKey key], none, some e2)
        | .atApprove =>
          match env.planErrorPubRaise with
          | none =>
            ([Action.tryClaimOk key,
              Action.pubProposed taskId d.session_id,
              Action.pubPlanError taskId env.failMsg g,
              Action.releaseKey key], none, none)
          | some e2 =>
            ([Action.tryClaimOk key,
              Action.pubProposed taskId d.session_id,
              Action.releaseKey key], none, some e2)

/-- The goal reported by `_publish_error_event`'s caller:
`data.get('data', {}).get('goal', 'Unknown')`. -/
def goalOrUnknown (d : TaskData) : String :=
  match d.goal with
  | none => "Unknown"
  | some g => g

/-- The `for attempt in range(max_retries)` retry loop of
`handle_task_created`: a normal return of the attempt short-circuits the
loop; an exception is logged, and either the terminal `task.error` event is
published (last attempt) or the loop sleeps `2 ** attempt` and retries.
`remaining + 1` attempts are still available and
`attempt = maxRetries - remaining - 1`. -/
def retryLoop (envs : Nat → AttemptEnv) (d : TaskData) (taskId : String)
    (maxRetries : Nat) : Nat → Option String → List Action × Option String
  | 0, ks => ([], ks)
  | remaining + 1, ks =>
    let attempt := maxRetries - remaining - 1
    let step := processTaskWithLock (envs attempt) d taskId attempt ks
    match step.2.2 with
    | none => (step.1, step.2.1)
    | some e =>
      if remaining = 0 then
        (step.1 ++ [Action.attemptFailed attempt e,
          Action.pubTaskError taskId e (goalOrUnknown d)], step.2.1)
      else
        let next := retryLoop envs d taskId maxRetries remaining step.2.1
        (step.1 ++ [Action.attemptFailed attempt e,
          Action.sleep (2 ^ attempt)] ++ next.1, next.2)

/-- `PlannerAgent.handle_task_created(event_type, data, max_retries=3)`:
returns the action trace and the resulting lock keyspace. -/
def handleTaskCreated (envs : Nat → AttemptEnv) (maxRetries : Nat)
    (d : TaskData) (ks : Option String) : List Action × Option String :=
  if falsyStr d.task_id then ([Action.logNoTaskId], ks)
  else retryLoop envs d (d.task_id.getD "") maxRetries maxRetries ks

/-- Recognizer for claim-acquisition actions. -/
def Action.isTryClaimOk : Action → Bool
  | .tryClaimOk _ => true
  | _ => false

/-- Recognizer for claim-release actions. -/
def Action.isReleaseKey : Action → Bool
  | .releaseKey _ => true
  | _ => false

/-- Recognizer for the per-attempt failure log. -/
def Action.isAttemptFailed : Action → Bool
  | .attemptFailed _ _ => true
  | _ => false

/-- Recognizer for backoff sleeps. -/
def Action.isSleep : Action → Bool
  | .sleep _ => true
  | _ => false

/-- Recognizer for terminal `task.error` publishes. -/
def Action.isTaskError : Action → Bool
  | .pubTaskError _ _ _ => true
  | _ => false

/-! ## Helper lemmas -/

theorem mem_lookup_addListener (r : Registry) (p : String) (l : Nat) :
    l ∈ lookupListeners (addListener r p l) p := by
  induction r with
  | nil => simp [addListener, lookupListeners]
  | cons e rest ih =>
    obtain ⟨q, ls⟩ := e
    by_cases hq : q = p
    · subst hq
      simp [addListener, lookupListeners]
    · simp [addListener, lookupListeners, hq, ih]

theorem lookup_eq_nil_of_not_mem (r : Registry) (p : String)
    (h : p ∉ registryKeys r) : lookupListeners r p = [] := by
  induction r with
  | nil => rfl
  | cons e rest ih =>
    obtain ⟨q, ls⟩ := e
    simp only [registryKeys, List.map_cons, List.mem_cons, not_or] at h
    obtain ⟨h1, h2⟩ := h
    have hqp : ¬(q = p) := fun hq => h1 hq.symm
    simp only [lookupListeners, if_neg hqp]
    exact ih h2

theorem globOn_star_singleton : ∀ l : List Char, globOn l (['*'] : List Char) = true := by
  intro l
  induction l with
  | nil => decide
  | cons d s2 ih =>
    simp only [globOn, globCons, if_pos rfl]
    simp only [globOn] at ih
    simp [ih]

theorem fnmatch_star (s : String) : fnmatch s "*" = true :=
  globOn_star_singleton s.data

theorem runHandlers_calls_all (behaviour : Nat → Except String Unit)
    (ls : List Nat) : (runHandlers behaviour ls).map Prod.fst = ls := by
  induction ls with
  | nil => rfl
  | cons l rest ih =>
    unfold runHandlers
    cases behaviour l <;> simp [ih]

theorem subscribe_mem (r : Registry) (p : String) (l : Nat) :
    l ∈ lookupListeners (subscribe r p l) p := by
  unfold subscribe
  by_cases h : l ∈ lookupListeners r p
  · rw [if_pos h]; exact h
  · rw [if_neg h]; exact mem_lookup_addListener r p l

/-! ## Claim theorems -/

/-- C3: Claim exclusivity invariant — in every state of the broker keyspace
at key `lock:task_created:{taskId}` reachable from unclaimed under the steps
`tryClaim`, `release` and TTL expiry, at most one claim exists at any
instant; `tryClaim` creates the claim and returns `true` iff the key was
absent (no live claim), returns `false` with no side effects on the keyspace
when it was present, and of `N ≥ 2` racing `tryClaim` calls for the same
task exactly one returns `true` and the other `N - 1` return `false`. -/
theorem c3_claim_exclusivity :
    (∀ steps : List ClaimStep, (runClaimSteps steps).length ≤ 1)
    ∧ (∀ (t : Nat) (holder : String) (ks : List ClaimEntry),
        (tryClaim t holder ks).2 = true ↔ aliveAt t ks = [])
    ∧ (∀ (t : Nat) (holder : String) (ks : List ClaimEntry),
        (tryClaim t holder ks).2 = false → (tryClaim t holder ks).1 = ks)
    ∧ (∀ (t : Nat) (holders : List String), 2 ≤ holders.length →
        (raceTryClaims t holders []).2.count true = 1 ∧
        (raceTryClaims t holders []).2.count false = holders.length - 1) := by
  refine ⟨runClaimSteps_le_one, tryClaim_true_iff_absent,
    tryClaim_false_no_side_effect, ?_⟩
  intro t holders hlen
  have hne : holders ≠ [] := by
    intro hnil
    rw [hnil] at hlen
    simp at hlen
  exact raceTryClaims_one_winner t holders hne

theorem c3_claim_exclusivity_witness :
    (raceTryClaims 0 ["w1", "w2", "w3"] []).2.count true = 1 ∧
    (raceTryClaims 0 ["w1", "w2", "w3"] []).2.count false = 2 :=
  c3_claim_exclusivity.2.2.2 0 ["w1", "w2", "w3"] (by decide)

/-- C7: Malformed payload handling — an envelope whose payload fails to
decode is dropped without invoking any listener, and the dispatch loop goes
on: a subsequent well-formed envelope is dispatched exactly as it would be
on its own. -/
theorem c7_malformed_payload {α : Type} (decode : String → Option α)
    (r : Registry) (m1 m2 : BrokerMsg) (h : decode m1.payload = none) :
    processMessage decode r m1 = [] ∧
    listenLoop decode r [m1, m2] = processMessage decode r m2 := by
  constructor
  · unfold processMessage
    rw [h]
  · unfold listenLoop
    simp [processMessage, h]

theorem c7_malformed_payload_witness :
    processMessage (fun s => if s = "good" then some s else none)
      (subscribe [] "task.created" 0)
      (BrokerMsg.message "task.created" "not json") = [] ∧
    listenLoop (fun s => if s = "good" then some s else none)
      (subscribe [] "task.created" 0)
      [BrokerMsg.message "task.created" "not json",
       BrokerMsg.message "task.created" "good"] =
    processMessage (fun s => if s = "good" then some s else none)
      (subscribe [] "task.created" 0)
      (BrokerMsg.message "task.created" "good") :=
  c7_malformed_payload _ _ _ _ (by decide)

/-- C8: Listener exception isolation — for every envelope, the listeners
invoked are exactly those of the exception-free dispatch (an exception from
one listener is caught and never suppresses an invocation of any other
matching listener), and the loop goes on to process the remaining
envelopes unchanged. -/
theorem c8_listener_exception_isolation {α : Type} (decode : String → Option α)
    (behaviour : Nat → Except String Unit) (r : Registry) (m : BrokerMsg)
    (msgs : List BrokerMsg) :
    (processMessageRun decode behaviour r m).map Prod.fst
      = (processMessage decode r m).map Prod.fst
    ∧ listenLoopRun decode behaviour r (m :: msgs)
      = processMessageRun decode behaviour r m
        ++ listenLoopRun decode behaviour r msgs := by
  constructor
  · unfold processMessageRun processMessage
    cases decode m.payload with
    | none => rfl
    | some d =>
      simp only
      rw [runHandlers_calls_all, List.map_map]
      have hid : (Prod.fst ∘ fun l : Nat => (l, m.channel, d)) = id := rfl
      rw [hid, List.map_id]
  · unfold listenLoopRun
    simp

/-- C10: Missing `task_id` — when the `task.created` payload has no
`task_id`, the handler only logs a warning and returns: no claim is
attempted, no event is published, and the broker keyspace is unchanged. -/
theorem c10_missing_task_id (envs : Nat → AttemptEnv) (maxRetries : Nat)
    (d : TaskData) (ks : Option String) (h : d.task_id = none) :
    handleTaskCreated envs maxRetries d ks = ([Action.logNoTaskId], ks) := by
  unfold handleTaskCreated
  rw [h]
  simp [falsyStr]

theorem c10_missing_task_id_witness :
    handleTaskCreated (fun _ => ⟨none, FailPoint.noFail, "", none⟩) 3
      ⟨none, some "sess", some "a goal"⟩ none = ([Action.logNoTaskId], none) :=
  c10_missing_task_id _ 3 _ none rfl

/-- C6: Idempotent subscribe — re-subscribing the same `(pattern, listener)`
pair is a no-op on the registry, the listener is registered, and for every
delivered envelope a dispatched listener is invoked exactly once (the
per-envelope de-duplication). -/
theorem c6_idempotent_subscribe (r : Registry) (p : String) (l : Nat) :
    subscribe (subscribe r p l) p l = subscribe r p l
    ∧ l ∈ lookupListeners (subscribe r p l) p
    ∧ ∀ m : BrokerMsg, l ∈ dispatchedListeners (subscribe r p l) m →
        (dispatchedListeners (subscribe r p l) m).count l = 1 := by
  refine ⟨?_, subscribe_mem r p l, ?_⟩
  · show (if l ∈ lookupListeners (subscribe r p l) p then subscribe r p l
        else addListener (subscribe r p l) p l) = subscribe r p l
    rw [if_pos (subscribe_mem r p l)]
  · intro m hm
    unfold dispatchedListeners at hm ⊢
    rw [List.count_dedup]
    rw [List.mem_dedup] at hm
    exact if_pos hm

theorem c6_idempotent_subscribe_witness :
    subscribe (subscribe [] "task.created" 7) "task.created" 7
      = subscribe [] "task.created" 7
    ∧ (dispatchedListeners (subscribe [] "task.created" 7)
        (BrokerMsg.message "task.created" "x")).count 7 = 1 :=
  ⟨(c6_idempotent_subscribe [] "task.created" 7).1,
   (c6_idempotent_subscribe [] "task.created" 7).2.2
     (BrokerMsg.message "task.created" "x") (by decide)⟩

/-- C4: Success-path ordering — on a successful attempt (no live claim, goal
present, no external failure) the worker emits `tryClaim` success, then
`plan.proposed`, then `plan.approved` — both carrying the same task and
session identifiers — and releases the claim at `lock:task_created:{taskId}`
only after both publishes, returning normally with the key deleted. -/
theorem c4_success_ordering (env : AttemptEnv) (d : TaskData)
    (taskId : String) (attempt : Nat) (g : String)
    (hlock : env.lockRaise = none) (hfp : env.failPoint = FailPoint.noFail)
    (hgoal : d.goal = some g) (hg : g ≠ "") :
    processTaskWithLock env d taskId attempt none =
      ([Action.tryClaimOk (lockKeyOf taskId),
        Action.pubProposed taskId d.session_id,
        Action.pubApproved taskId d.session_id,
        Action.releaseKey (lockKeyOf taskId)], none, none) := by
  have hfg : falsyStr d.goal = false := by
    rw [hgoal]
    show g.isEmpty = false
    rw [Bool.eq_false_iff]
    intro hemp
    exact hg ((String.isEmpty_iff g).mp hemp)
  unfold processTaskWithLock
  rw [hlock, hfp]
  simp only [setNX, hfg]
  simp

theorem c4_success_ordering_witness :
    processTaskWithLock ⟨none, FailPoint.noFail, "", none⟩
      ⟨some "t1", some "s1", some "compute 2 + 2"⟩ "t1" 0 none =
      ([Action.tryClaimOk "lock:task_created:t1",
        Action.pubProposed "t1" (some "s1"),
        Action.pubApproved "t1" (some "s1"),
        Action.releaseKey "lock:task_created:t1"], none, none) :=
  c4_success_ordering ⟨none, FailPoint.noFail, "", none⟩
    ⟨some "t1", some "s1", some "compute 2 + 2"⟩ "t1" 0 "compute 2 + 2"
    rfl rfl rfl (by decide)

/-- C9: An exception raised after the claim was acquired (in plan creation,
the `plan.proposed` publish, or `approve_plan`) is caught inside
`_process_task_with_lock`: exactly one `plan.error` event carrying the task
id, the error and the goal is published, the claim is released in the
`finally` block (after the `plan.error` publish), and the function returns
normally — no exception propagates to the retry wrapper. -/
theorem c9_exception_isolated_in_lock (env : AttemptEnv) (d : TaskData)
    (taskId : String) (attempt : Nat) (g : String)
    (hlock : env.lockRaise = none) (herr : env.planErrorPubRaise = none)
    (hgoal : d.goal = some g) (hg : g ≠ "") :
    ((env.failPoint = FailPoint.atCreatePlan
      ∨ env.failPoint = FailPoint.atPubProposed) →
      processTaskWithLock env d taskId attempt none =
        ([Action.tryClaimOk (lockKeyOf taskId),
          Action.pubPlanError taskId env.failMsg g,
          Action.releaseKey (lockKeyOf taskId)], none, none))
    ∧ (env.failPoint = FailPoint.atApprove →
      processTaskWithLock env d taskId attempt none =
        ([Action.tryClaimOk (lockKeyOf taskId),
          Action.pubProposed taskId d.session_id,
          Action.pubPlanError taskId env.failMsg g,
          Action.releaseKey (lockKeyOf taskId)], none, none)) := by
  have hfg : falsyStr d.goal = false := by
    rw [hgoal]
    show g.isEmpty = false
    rw [Bool.eq_false_iff]
    intro hemp
    exact hg ((String.isEmpty_iff g).mp hemp)
  have hgd : d.goal.getD "" = g := by rw [hgoal]; rfl
  constructor
  · intro hfp
    cases hfp with
    | inl h =>
      unfold processTaskWithLock
      rw [hlock, h, herr]
      simp only [setNX, hfg]
      simp [hgd]
    | inr h =>
      unfold processTaskWithLock
      rw [hlock, h, herr]
      simp only [setNX, hfg]
      simp [hgd]
  · intro hfp
    unfold processTaskWithLock
    rw [hlock, hfp, herr]
    simp only [setNX, hfg]
    simp [hgd]

/-- Every attempt acquires the claim, plan creation raises `e i`, and the
`plan.error` publish raises `f i` — so every attempt raises, `f i`
propagating out of `_process_task_with_lock` to the retry wrapper. -/
def alwaysFailEnv (e f : Nat → String) : Nat → AttemptEnv :=
  fun i => ⟨none, FailPoint.atCreatePlan, e i, some (f i)⟩

/-- Every attempt's Redis `SET` call raises `e i` (re-raised after logging),
so no claim is ever held. -/
def lockFailEnv (e : Nat → String) : Nat → AttemptEnv :=
  fun i => ⟨some (e i), FailPoint.noFail, "", none⟩

/-- No external failure at all. -/
def okEnv : Nat → AttemptEnv :=
  fun _ => ⟨none, FailPoint.noFail, "", none⟩

theorem falsyStr_some_false (s : String) (h : s ≠ "") :
    falsyStr (some s) = false := by
  show s.isEmpty = false
  rw [Bool.eq_false_iff]
  intro hemp
  exact h ((String.isEmpty_iff s).mp hemp)

theorem processTaskWithLock_fail_attempt (d : TaskData) (tid g msg e2 : String)
    (attempt : Nat) (hgoal : d.goal = some g) (hg : g ≠ "") :
    processTaskWithLock ⟨none, FailPoint.atCreatePlan, msg, some e2⟩ d tid
      attempt none =
      ([Action.tryClaimOk (lockKeyOf tid), Action.releaseKey (lockKeyOf tid)],
       none, some e2) := by
  have hfg : falsyStr d.goal = false := hgoal ▸ falsyStr_some_false g hg
  unfold processTaskWithLock
  simp only [setNX, hfg]
  simp

theorem retryLoop_exhaust_counts (d : TaskData) (tid g : String)
    (e f : Nat → String) (hgoal : d.goal = some g) (hg : g ≠ "") (mr : Nat) :
    ∀ remaining, 1 ≤ remaining →
      (retryLoop (alwaysFailEnv e f) d tid mr remaining none).2 = none
      ∧ ((retryLoop (alwaysFailEnv e f) d tid mr remaining none).1.countP
          Action.isAttemptFailed = remaining
        ∧ (retryLoop (alwaysFailEnv e f) d tid mr remaining none).1.countP
          Action.isTaskError = 1
        ∧ (retryLoop (alwaysFailEnv e f) d tid mr remaining none).1.countP
          Action.isSleep = remaining - 1
        ∧ (retryLoop (alwaysFailEnv e f) d tid mr remaining none).1.countP
          Action.isTryClaimOk = remaining
        ∧ (retryLoop (alwaysFailEnv e f) d tid mr remaining none).1.countP
          Action.isReleaseKey = remaining) := by
  intro remaining
  induction remaining with
  | zero => intro h; omega
  | succ k ih =>
    intro _
    have hstep := processTaskWithLock_fail_attempt d tid g
      (e (mr - k - 1)) (f (mr - k - 1)) (mr - k - 1) hgoal hg
    have henv : alwaysFailEnv e f (mr - k - 1) =
        ⟨none, FailPoint.atCreatePlan, e (mr - k - 1),
          some (f (mr - k - 1))⟩ := rfl
    by_cases hk : k = 0
    · subst hk
      simp only [retryLoop, henv, hstep]
      simp [Action.isAttemptFailed, Action.isTaskError, Action.isSleep,
        Action.isTryClaimOk, Action.isReleaseKey, List.countP_cons]
    · have ihk := ih (Nat.one_le_iff_ne_zero.mpr hk)
      obtain ⟨ih1, ih2, ih3, ih4, ih5, ih6⟩ := ihk
      simp only [retryLoop, henv, hstep, if_neg hk]
      refine ⟨ih1, ?_, ?_, ?_, ?_, ?_⟩ <;>
      · simp [List.countP_append, List.countP_cons, Action.isAttemptFailed,
          Action.isTaskError, Action.isSleep, Action.isTryClaimOk,
          Action.isReleaseKey, ih2, ih3, ih4, ih5, ih6]
        try omega

/-- C2: Retry wrapper termination — when every processing attempt raises,
`handle_task_created` performs exactly `maxRetries` attempts (default 3),
sleeping `2 ^ attempt` time units between consecutive attempts (1 then 2 for
the default: strictly increasing, attempt counted from 0), then publishes
exactly one terminal `task.error` event carrying the task id, the last error
message and the original goal; each attempt that acquired the claim releases
it exactly once (claim acquisitions and releases balance; with the claim
never acquired there is nothing to release), and a successful attempt
short-circuits the loop with no further attempts, no sleeps and no
`task.error`. -/
theorem c2_retry_termination (d : TaskData) (tid g : String)
    (e f : Nat → String) (htid : d.task_id = some tid) (htid2 : tid ≠ "")
    (hgoal : d.goal = some g) (hg : g ≠ "") :
    (∀ mr, 1 ≤ mr →
      (handleTaskCreated (alwaysFailEnv e f) mr d none).2 = none
      ∧ ((handleTaskCreated (alwaysFailEnv e f) mr d none).1.countP
          Action.isAttemptFailed = mr
        ∧ (handleTaskCreated (alwaysFailEnv e f) mr d none).1.countP
          Action.isTaskError = 1
        ∧ (handleTaskCreated (alwaysFailEnv e f) mr d none).1.countP
          Action.isSleep = mr - 1
        ∧ (handleTaskCreated (alwaysFailEnv e f) mr d none).1.countP
          Action.isTryClaimOk = mr
        ∧ (handleTaskCreated (alwaysFailEnv e f) mr d none).1.countP
          Action.isReleaseKey = mr))
    ∧ (handleTaskCreated (alwaysFailEnv e f) 3 d none =
        ([Action.tryClaimOk (lockKeyOf tid), Action.releaseKey (lockKeyOf tid),
          Action.attemptFailed 0 (f 0), Action.sleep 1,
          Action.tryClaimOk (lockKeyOf tid), Action.releaseKey (lockKeyOf tid),
          Action.attemptFailed 1 (f 1), Action.sleep 2,
          Action.tryClaimOk (lockKeyOf tid), Action.releaseKey (lockKeyOf tid),
          Action.attemptFailed 2 (f 2),
          Action.pubTaskError tid (f 2) g], none))
    ∧ (handleTaskCreated (lockFailEnv e) 3 d none =
        ([Action.attemptFailed 0 (e 0), Action.sleep 1,
          Action.attemptFailed 1 (e 1), Action.sleep 2,
          Action.attemptFailed 2 (e 2),
          Action.pubTaskError tid (e 2) g], none))
    ∧ (handleTaskCreated okEnv 3 d none =
        ([Action.tryClaimOk (lockKeyOf tid),
          Action.pubProposed tid d.session_id,
          Action.pubApproved tid d.session_id,
          Action.releaseKey (lockKeyOf tid)], none)) := by
  have hfalsy : falsyStr d.task_id = false :=
    htid ▸ falsyStr_some_false tid htid2
  have hgd : d.task_id.getD "" = tid := by rw [htid]; rfl
  have hga : goalOrUnknown d = g := by simp [goalOrUnknown, hgoal]
  have hunf : ∀ (envs : Nat → AttemptEnv) (mr : Nat),
      handleTaskCreated envs mr d none = retryLoop envs d tid mr mr none := by
    intro envs mr
    unfold handleTaskCreated
    rw [hfalsy, hgd]
    simp
  have h0 := processTaskWithLock_fail_attempt d tid g (e 0) (f 0) 0 hgoal hg
  have h1 := processTaskWithLock_fail_attempt d tid g (e 1) (f 1) 1 hgoal hg
  have h2 := processTaskWithLock_fail_attempt d tid g (e 2) (f 2) 2 hgoal hg
  refine ⟨?_, ?_, ?_, ?_⟩
  · intro mr hmr
    rw [hunf]
    exact retryLoop_exhaust_counts d tid g e f hgoal hg mr mr hmr
  · rw [hunf]
    simp [retryLoop, alwaysFailEnv, h0, h1, h2, hga]
  · rw [hunf]
    have hl : ∀ (i : Nat) (ks : Option String),
        processTaskWithLock (lockFailEnv e i) d tid i ks =
          ([], ks, some (e i)) := fun i ks => rfl
    simp [retryLoop, hl, hga]
  · rw [hunf]
    have hso : processTaskWithLock (okEnv 0) d tid 0 none =
        ([Action.tryClaimOk (lockKeyOf tid),
          Action.pubProposed tid d.session_id,
          Action.pubApproved tid d.session_id,
          Action.releaseKey (lockKeyOf tid)], none, none) := by
      have hfg : falsyStr d.goal = false := hgoal ▸ falsyStr_some_false g hg
      unfold okEnv processTaskWithLock
      simp only [setNX, hfg]
      simp
    simp [retryLoop, hso]

theorem c2_retry_termination_witness :
    handleTaskCreated
      (alwaysFailEnv (fun _ => "boom") (fun _ => "pubfail")) 3
      ⟨some "t1", some "s1", some "write a poem"⟩ none =
      ([Action.tryClaimOk "lock:task_created:t1",
        Action.releaseKey "lock:task_created:t1",
        Action.attemptFailed 0 "pubfail", Action.sleep 1,
        Action.tryClaimOk "lock:task_created:t1",
        Action.releaseKey "lock:task_created:t1",
        Action.attemptFailed 1 "pubfail", Action.sleep 2,
        Action.tryClaimOk "lock:task_created:t1",
        Action.releaseKey "lock:task_created:t1",
        Action.attemptFailed 2 "pubfail",
        Action.pubTaskError "t1" "pubfail" "write a poem"], none) :=
  (c2_retry_termination ⟨some "t1", some "s1", some "write a poem"⟩
    "t1" "write a poem" (fun _ => "boom") (fun _ => "pubfail")
    rfl (by decide) rfl (by decide)).2.1

/-- C5: Glob matching — for a pattern-delivered envelope, `_process_message`
invokes exactly the listeners registered under a pattern (other than `'*'`)
that glob-matches the concrete topic in the declarative shell-style
semantics (`*` any run, `?` one character, `[...]` class), together with
the `'*'` wildcard listeners; in particular a listener on `task.*` is
invoked for a publish to `task.created` and not for one to
`plan.approved`. -/
theorem c5_glob_dispatch (r : Registry) (pat c payload : String) (l : Nat) :
    (l ∈ dispatchedListeners r (BrokerMsg.pmessage pat c payload) ↔
      ((∃ p ∈ registryKeys r, p ≠ "*" ∧ GlobSem p.data c.data ∧
        l ∈ lookupListeners r p)
      ∨ l ∈ lookupListeners r "*"))
    ∧ invocationsOfPublish some (subscribe [] "task.*" 5) "task.created" "x"
        = [(5, "task.created", "x")]
    ∧ invocationsOfPublish some (subscribe [] "task.*" 5) "plan.approved" "x"
        = [] := by
  refine ⟨?_, by decide, by decide⟩
  unfold dispatchedListeners matchingPatterns
  rw [List.mem_dedup, List.mem_append]
  constructor
  · rintro (h | h)
    · left
      rw [List.mem_flatten] at h
      obtain ⟨ls, hls, hl⟩ := h
      rw [List.mem_map] at hls
      obtain ⟨p, hp, rfl⟩ := hls
      rw [List.mem_filter] at hp
      obtain ⟨hpk, hcond⟩ := hp
      rw [Bool.and_eq_true] at hcond
      refine ⟨p, hpk, ?_, ?_, hl⟩
      · have hb := hcond.1
        simp only [Bool.not_eq_eq_eq_not, Bool.not_true, beq_eq_false_iff_ne,
          ne_eq] at hb
        exact hb
      · exact (fnmatch_iff_globSem c p).mp hcond.2
    · right
      exact h
  · rintro (⟨p, hpk, hne, hsem, hl⟩ | h)
    · left
      rw [List.mem_flatten]
      refine ⟨lookupListeners r p, ?_, hl⟩
      rw [List.mem_map]
      refine ⟨p, ?_, rfl⟩
      rw [List.mem_filter]
      refine ⟨hpk, ?_⟩
      rw [Bool.and_eq_true]
      refine ⟨?_, (fnmatch_iff_globSem c p).mpr hsem⟩
      simp [hne]
    · right
      exact h

/-- C1 counterexample: with listener `0` subscribed to the exact topic
`task.created` and listener `1` subscribed to `'*'` — precisely the planner
process's own registry shape — one publish of `task.created` invokes
listener `0` twice, not once: Redis delivers both a `message` envelope (for
the exact subscription) and a `pmessage` envelope (for `psubscribe('*')`),
and `_process_message` dispatches the exact-topic listeners for both (the
`pmessage` branch matches the registered exact pattern by glob, and the
`message` branch adds the wildcard listeners). -/
theorem c1_exact_once_counterexample :
    invocationCount 0 (invocationsOfPublish some
      (subscribe (subscribe [] "task.created" 0) "*" 1)
      "task.created" "payload") = 2 := by decide

/-- C1 amended: delivery is exactly-once only when a single broker envelope
results from the publish — if listener `l` is subscribed to exact topic
`topic` (no glob metacharacters) and no registered glob pattern matches the
topic, then one publish invokes `l` exactly once; in general each processed
envelope invokes each matched listener at most once (per-envelope
de-duplication), but a listener is invoked once per matching broker
subscription (exact plus each matching glob pattern), so cross-subscription
exactly-once fails. -/
theorem c1_exact_once_amended {α : Type} (decode : String → Option α)
    (r : Registry) (topic payload : String) (l : Nat) (d : α)
    (hdec : decode payload = some d)
    (htop : hasGlobChar topic = false)
    (hng : ∀ p ∈ registryKeys r, hasGlobChar p = true →
      fnmatch topic p = false) :
    (invocationCount l (invocationsOfPublish decode r topic payload) =
      if l ∈ lookupListeners r topic then 1 else 0)
    ∧ ∀ m : BrokerMsg, (dispatchedListeners r m).Nodup := by
  refine ⟨?_, fun m => List.nodup_dedup _⟩
  have hpm : (registryKeys r).filterMap (fun p =>
      if hasGlobChar p && fnmatch topic p
      then some (BrokerMsg.pmessage p topic payload) else none) = [] := by
    rw [List.filterMap_eq_nil_iff]
    intro p hp
    by_cases hglob : hasGlobChar p = true
    · rw [if_neg]
      rw [hglob, hng p hp hglob]
      simp
    · rw [if_neg]
      rw [Bool.not_eq_true] at hglob
      rw [hglob]
      simp
  have hstar : "*" ∉ registryKeys r := by
    intro hs
    have hx := hng "*" hs (by decide)
    rw [fnmatch_star topic] at hx
    simp at hx
  have hlstar : lookupListeners r "*" = [] :=
    lookup_eq_nil_of_not_mem r "*" hstar
  by_cases hmem : topic ∈ registryKeys r
  · have hany : ((registryKeys r).any
        (fun p => !hasGlobChar p && p == topic)) = true := by
      rw [List.any_eq_true]
      refine ⟨topic, hmem, ?_⟩
      rw [htop]
      simp
    unfold invocationsOfPublish deliveriesFor listenLoop
    rw [hpm, hany]
    simp only [if_true, List.append_nil, List.map_cons, List.map_nil,
      List.flatten_cons, List.flatten_nil]
    unfold processMessage
    simp only [BrokerMsg.payload]
    rw [hdec]
    unfold invocationCount
    simp only [List.append_nil, List.map_map]
    have hid : (Prod.fst ∘ fun x : Nat =>
        (x, (BrokerMsg.message topic payload).channel, d)) = id := rfl
    rw [hid, List.map_id]
    unfold dispatchedListeners matchingPatterns
    rw [hlstar]
    simp only [List.map_cons, List.map_nil, List.flatten_cons,
      List.flatten_nil, List.append_nil]
    exact List.count_dedup _ _
  · have hany : ((registryKeys r).any
        (fun p => !hasGlobChar p && p == topic)) = false := by
      rw [List.any_eq_false]
      intro p hp
      by_cases hpt : p = topic
      · exact absurd (hpt ▸ hp) hmem
      · simp [hpt]
    unfold invocationsOfPublish deliveriesFor listenLoop
    rw [hpm, hany]
    simp only [Bool.false_eq_true, if_false, List.nil_append, List.map_nil,
      List.flatten_nil]
    rw [lookup_eq_nil_of_not_mem r topic hmem]
    simp [invocationCount]

theorem c1_exact_once_amended_witness :
    (invocationCount 0 (invocationsOfPublish some
      (subscribe [] "task.created" 0) "task.created" "payload") =
      if 0 ∈ lookupListeners (subscribe [] "task.created" 0) "task.created"
      then 1 else 0)
    ∧ ∀ m : BrokerMsg,
        (dispatchedListeners (subscribe [] "task.created" 0) m).Nodup :=
  c1_exact_once_amended some (subscribe [] "task.created" 0)
    "task.created" "payload" 0 "payload" rfl (by decide) (by decide)

theorem c9_exception_isolated_in_lock_witness :
    processTaskWithLock ⟨none, FailPoint.atCreatePlan, "boom", none⟩
      ⟨some "t1", some "s1", some "goal g"⟩ "t1" 0 none =
      ([Action.tryClaimOk "lock:task_created:t1",
        Action.pubPlanError "t1" "boom" "goal g",
        Action.releaseKey "lock:task_created:t1"], none, none) :=
  (c9_exception_isolated_in_lock ⟨none, FailPoint.atCreatePlan, "boom", none⟩
    ⟨some "t1", some "s1", some "goal g"⟩ "t1" 0 "goal g"
    rfl rfl rfl (by decide)).1 (Or.inl rfl)

end SuperAI
